import Mathlib

/-!
Verification of the emilydotgg-feedback routing core.

Shallow embedding of the Rust sources in src/lib.rs and src/router.rs.
Sample payloads ([f32; 2] in the source) are never inspected by the routing
logic, only moved; they are modelled as pairs of integers. A Channel is the
queue of a std::sync::mpsc::sync_channel with capacity 10; the Router map
(HashMap<Uuid, Channels>) is modelled as an association list with the
HashMap insert-replaces semantics; Uuid values are modelled as Nat, since
only equality on ids is ever used.
-/

namespace Feedback

/-- Stereo sample frame: type Sample = [f32; 2] in lib.rs. The float payload
is opaque to all routing code, so it is modelled as a pair of integers. -/
abbrev Sample := Int × Int

/-- One render call's worth of frames: Vec<Sample> sent through a channel. -/
abbrev Block := List Sample

/-- The queue of one sync_channel: front of the list is the oldest block. -/
abbrev Channel := List Block

/-- Capacity of each channel queue: mpsc::sync_channel::<T>(10) in
router.rs, Channels::new. -/
def channelCapacity : Nat := 10

/-- Mode enum from lib.rs. -/
inductive Mode
  | Receiver
  | Sender
deriving DecidableEq

/-- Diagnostic messages emitted through self.log in lib.rs (host DebugLogMsg).
underrun carries the buffered length and the requested output length,
matching the "underrun: k vs n" message; noRx is the "no rx?" message;
loadError is the "error reading state" message in load_state. -/
inductive LogMsg
  | underrun (k n : Nat)
  | noRx
  | loadError
deriving DecidableEq

/-- Association-list lookup with HashMap::get_mut semantics
(_Router::channel in router.rs). -/
def assocLookup : List (Nat × Channel) → Nat → Option Channel
  | [], _ => none
  | (k, v) :: rest, u => if u = k then some v else assocLookup rest u

/-- Remove any binding for a key (helper for insert-replace). -/
def mapErase : List (Nat × Channel) → Nat → List (Nat × Channel)
  | [], _ => []
  | (k, v) :: rest, u =>
    if k = u then mapErase rest u else (k, v) :: mapErase rest u

/-- HashMap::insert semantics: binds the key to the new value, replacing
and dropping any existing binding. -/
def mapInsert (m : List (Nat × Channel)) (u : Nat) (c : Channel) :
    List (Nat × Channel) :=
  (u, c) :: mapErase m u

/-- The _Router struct of router.rs: channels: HashMap<Uuid, SamplesChannels>.
The Mutex wrapper of Router is identity in this sequential embedding. -/
structure RouterState where
  channels : List (Nat × Channel)
deriving DecidableEq

/-- _Router::channel: lookup of a channel by id. -/
def channel (r : RouterState) (u : Nat) : Option Channel :=
  assocLookup r.channels u

/-- _Router::new_channel: inserts a new empty channel under the id drawn
from the Uuid::new_v4 generator (the generator's output is passed in as u)
and returns that id. -/
def new_channel (r : RouterState) (u : Nat) : Nat × RouterState :=
  (u, RouterState.mk (mapInsert r.channels u []))

/-- _Router::new_channel_with_id: self.channels.insert(uuid, Channels::new()),
an unconditional HashMap insert of a fresh empty channel. -/
def new_channel_with_id (r : RouterState) (u : Nat) : RouterState :=
  RouterState.mk (mapInsert r.channels u [])

/-- Rebind a key to a new value without touching other bindings (helper
for in-place channel mutation). -/
def updateAssoc (m : List (Nat × Channel)) (u : Nat) (c : Channel) :
    List (Nat × Channel) :=
  match m with
  | [] => []
  | (k, v) :: rest =>
    if k = u then (k, c) :: rest else (k, v) :: updateAssoc rest u c

/-- Write back the (mutated-in-place through the MappedMutexGuard) queue of
the channel bound to u. -/
def updateCh (r : RouterState) (u : Nat) (c : Channel) : RouterState :=
  RouterState.mk (updateAssoc r.channels u c)

/-- The plugin-instance state relevant to the routing core, from the
Feedback struct in lib.rs: mode, the local smoothing buffer store
(VecDeque<Sample>, front of the list = front of the deque), the optional
selected channel id, the shared Router, and the log of diagnostics. -/
structure FeedbackState where
  mode : Mode
  store : List Sample
  uuid : Option Nat
  router : RouterState
  logs : List LogMsg
deriving DecidableEq

/-- Field initialization of Feedback::new in lib.rs: Receiver mode, empty
store, no channel selected, no diagnostics yet. -/
def initialFeedback (router : RouterState) : FeedbackState :=
  { mode := Mode.Receiver, store := [], uuid := none,
    router := router, logs := [] }

/-- High watermark HIGH_MARK in Feedback::render. -/
def HIGH_MARK : Nat := 4096

/-- Low watermark LOW_MARK in Feedback::render. -/
def LOW_MARK : Nat := 256

/-- The receiver fill loop of Feedback::render (Mode::Receiver):
while store.len() < HIGH_MARK { match rx.try_recv() { Ok(samples) =>
push_back each, Err => break } }. try_recv on the queue pops the front
block; an empty queue is the Err case. Returns the new store and the
remaining queue. -/
def fillLoop (store : List Sample) (chan : Channel) : List Sample × Channel :=
  if store.length < HIGH_MARK then
    match chan with
    | [] => (store, [])
    | b :: rest => fillLoop (store ++ b) rest
  else (store, chan)

/-- The fill step of Feedback::render (Mode::Receiver): look up the rx end
of the selected channel (log "no rx?" if there is no selection or no such
channel), and run the fill loop only when the store is below LOW_MARK. -/
def receiverFill (s : FeedbackState) : FeedbackState :=
  match s.uuid with
  | none => { s with logs := s.logs ++ [LogMsg.noRx] }
  | some u =>
    match channel s.router u with
    | none => { s with logs := s.logs ++ [LogMsg.noRx] }
    | some chan =>
      if s.store.length < LOW_MARK then
        let res := fillLoop s.store chan
        { s with store := res.1, router := updateCh s.router u res.2 }
      else s

/-- The output step of Feedback::render (Mode::Receiver): if the store holds
fewer frames than the output length, log an underrun and return leaving the
output untouched; otherwise pop one frame off the front of the store into
each output slot, in order. The output buffer contents are passed in and
the (possibly rewritten) contents are returned. -/
def receiverOutput (s : FeedbackState) (output : List Sample) :
    FeedbackState × List Sample :=
  if s.store.length < output.length then
    ({ s with logs :=
        s.logs ++ [LogMsg.underrun s.store.length output.length] }, output)
  else
    ({ s with store := s.store.drop output.length },
      s.store.take output.length)

/-- Feedback::render in Mode::Receiver: fill step then output step. -/
def renderReceiver (s : FeedbackState) (output : List Sample) :
    FeedbackState × List Sample :=
  receiverOutput (receiverFill s) output

/-- Feedback::render in Mode::Sender: tx.send(Vec::from(input)).unwrap().
SyncSender::send appends the block when the queue is below capacity and
otherwise BLOCKS the calling thread until space frees; a call that cannot
complete without a concurrent consumer is modelled as none. A missing
selection or missing channel is a no-op (the if-let is skipped). -/
def renderSender (s : FeedbackState) (input : Block) : Option FeedbackState :=
  match s.uuid with
  | none => some s
  | some u =>
    match channel s.router u with
    | none => some s
    | some chan =>
      if chan.length < channelCapacity then
        some { s with router := updateCh s.router u (chan ++ [input]) }
      else none

/-- Feedback::set_channel in lib.rs: clear the local store, drain (and
discard) every block queued on the newly selected channel if it exists,
and record the id as the current selection. -/
def set_channel (s : FeedbackState) (u : Nat) : FeedbackState :=
  let r2 :=
    match channel s.router u with
    | some _ => updateCh s.router u []
    | none => s.router
  { s with store := [], router := r2, uuid := some u }

/-- SaveState enum from lib.rs. -/
inductive SaveState
  | Ver1 (mode : Mode) (uuid : Nat)
deriving DecidableEq

/-- Feedback::load_state: the read_to_end plus bincode::deserialize outcome
is passed in as parsed (none = read or deserialize failure). On failure the
code only logs "error reading state" and returns. On success it sets the
mode, creates the channel under the saved id if absent, and selects it. -/
def load_state (s : FeedbackState) (parsed : Option SaveState) :
    FeedbackState :=
  match parsed with
  | none => { s with logs := s.logs ++ [LogMsg.loadError] }
  | some (SaveState.Ver1 mode uuid) =>
    let s1 := { s with mode := mode }
    let s2 :=
      match channel s1.router uuid with
      | none => { s1 with router := new_channel_with_id s1.router uuid }
      | some _ => s1
    set_channel s2 uuid

/-- Flatten a queue of blocks into its frame sequence, in order. -/
def blocksJoin : Channel → List Sample
  | [] => []
  | b :: bs => b ++ blocksJoin bs

/-- One producer / one consumer event over a single channel: either the
Sender render path sends one input block, or the Receiver render path runs
with a requested output length n. -/
inductive Ev
  | send (b : Block)
  | recv (n : Nat)
deriving DecidableEq

/-- State of a single-channel producer/consumer pair: the channel queue, the
consumer's local store, and the concatenation of all frames the consumer
has output so far. -/
structure TraceState where
  queue : Channel
  store : List Sample
  out : List Sample
deriving DecidableEq

/-- The watermark-gated fill of the Receiver render path: run the fill loop
only when the store is below LOW_MARK. -/
def recvFill (store : List Sample) (q : Channel) : List Sample × Channel :=
  if store.length < LOW_MARK then fillLoop store q else (store, q)

/-- One step over one channel: send is the Sender render path of
Feedback::render (SyncSender::send appends below capacity and otherwise
blocks, modelled as none); recv is the Receiver render path (fill below
LOW_MARK via fillLoop, then either underrun leaving the output untouched,
or pop n frames off the front of the store into the output). -/
def stepEv (st : TraceState) : Ev → Option TraceState
  | Ev.send b =>
    if st.queue.length < channelCapacity then
      some { st with queue := st.queue ++ [b] }
    else none
  | Ev.recv n =>
    if (recvFill st.store st.queue).1.length < n then
      some { queue := (recvFill st.store st.queue).2,
             store := (recvFill st.store st.queue).1, out := st.out }
    else
      some { queue := (recvFill st.store st.queue).2,
             store := (recvFill st.store st.queue).1.drop n,
             out := st.out ++ (recvFill st.store st.queue).1.take n }

/-- Run a sequence of producer/consumer events over one channel. -/
def runTrace (st : TraceState) : List Ev → Option TraceState
  | [] => some st
  | e :: es =>
    match stepEv st e with
    | none => none
    | some st1 => runTrace st1 es

/-- Concatenation of the frames of all blocks sent in a trace, in send
order. -/
def sentFrames : List Ev → List Sample
  | [] => []
  | Ev.send b :: es => b ++ sentFrames es
  | Ev.recv _ :: es => sentFrames es

/-- Run a sequence of _Router::new_channel calls; us is the stream of ids
produced by the Uuid::new_v4 generator, one per call. Returns the list of
returned ids and the final router. -/
def runCreates (r : RouterState) : List Nat → List Nat × RouterState
  | [] => ([], r)
  | u :: us =>
    let step := new_channel r u
    let rest := runCreates step.2 us
    (step.1 :: rest.1, rest.2)

/-! Helper lemmas about the association-list map and the fill loop. -/

theorem assocLookup_mapErase (m : List (Nat × Channel)) (u v : Nat)
    (h : v ≠ u) : assocLookup (mapErase m u) v = assocLookup m v := by
  induction m with
  | nil => rfl
  | cons p rest ih =>
    obtain ⟨k, c⟩ := p
    by_cases hk : k = u
    · subst hk
      have hv : v ≠ k := h
      simp [mapErase, assocLookup, hv, ih]
    · simp [mapErase, hk, assocLookup, ih]

theorem assocLookup_mapInsert_self (m : List (Nat × Channel)) (u : Nat)
    (c : Channel) : assocLookup (mapInsert m u c) u = some c := by
  simp [mapInsert, assocLookup]

theorem assocLookup_mapInsert_other (m : List (Nat × Channel)) (u v : Nat)
    (c : Channel) (h : v ≠ u) :
    assocLookup (mapInsert m u c) v = assocLookup m v := by
  simp [mapInsert, assocLookup, h, assocLookup_mapErase m u v h]

theorem mapErase_mapErase (m : List (Nat × Channel)) (u : Nat) :
    mapErase (mapErase m u) u = mapErase m u := by
  induction m with
  | nil => rfl
  | cons p rest ih =>
    obtain ⟨k, c⟩ := p
    by_cases hk : k = u
    · simp [mapErase, hk, ih]
    · simp [mapErase, hk, ih]

theorem assocLookup_updateAssoc_self (m : List (Nat × Channel)) (u : Nat)
    (c c0 : Channel) (h : assocLookup m u = some c0) :
    assocLookup (updateAssoc m u c) u = some c := by
  induction m with
  | nil => simp [assocLookup] at h
  | cons p rest ih =>
    obtain ⟨k, v⟩ := p
    by_cases hk : k = u
    · subst hk
      simp [updateAssoc, assocLookup]
    · have hu : ¬ u = k := fun hh => hk hh.symm
      simp [assocLookup, hu] at h
      simp [updateAssoc, hk, assocLookup, hu, ih h]

theorem fillLoop_nil (s : List Sample) : fillLoop s [] = (s, []) := by
  unfold fillLoop
  by_cases h : s.length < HIGH_MARK
  · rw [if_pos h]
  · rw [if_neg h]

theorem fillLoop_stop (s : List Sample) (c : Channel)
    (h : ¬ s.length < HIGH_MARK) : fillLoop s c = (s, c) := by
  unfold fillLoop
  rw [if_neg h]

theorem fillLoop_cons (s : List Sample) (b : Block) (rest : Channel)
    (h : s.length < HIGH_MARK) :
    fillLoop s (b :: rest) = fillLoop (s ++ b) rest := by
  conv_lhs => unfold fillLoop
  rw [if_pos h]

theorem fillLoop_conserves (c : Channel) (s : List Sample) :
    (fillLoop s c).1 ++ blocksJoin (fillLoop s c).2 = s ++ blocksJoin c := by
  induction c generalizing s with
  | nil =>
    unfold fillLoop
    by_cases h : s.length < HIGH_MARK <;> simp [h, blocksJoin]
  | cons b rest ih =>
    unfold fillLoop
    by_cases h : s.length < HIGH_MARK
    · simpa [h, blocksJoin, List.append_assoc] using ih (s ++ b)
    · simp [h]

theorem fillLoop_high_or_empty (c : Channel) (s : List Sample) :
    HIGH_MARK ≤ (fillLoop s c).1.length ∨ (fillLoop s c).2 = [] := by
  induction c generalizing s with
  | nil =>
    unfold fillLoop
    by_cases h : s.length < HIGH_MARK <;> simp [h]
  | cons b rest ih =>
    unfold fillLoop
    by_cases h : s.length < HIGH_MARK
    · simpa [h] using ih (s ++ b)
    · simpa [h] using Nat.le_of_not_lt h

theorem blocksJoin_append (c1 c2 : Channel) :
    blocksJoin (c1 ++ c2) = blocksJoin c1 ++ blocksJoin c2 := by
  induction c1 with
  | nil => rfl
  | cons b rest ih => simp [blocksJoin, ih]

theorem recvFill_conserves (s : List Sample) (q : Channel) :
    (recvFill s q).1 ++ blocksJoin (recvFill s q).2 = s ++ blocksJoin q := by
  unfold recvFill
  by_cases h : s.length < LOW_MARK
  · simpa [h] using fillLoop_conserves q s
  · simp [h]

theorem stepEv_conserves (st st1 : TraceState) (e : Ev)
    (h : stepEv st e = some st1) :
    st1.out ++ st1.store ++ blocksJoin st1.queue =
      st.out ++ st.store ++ blocksJoin st.queue ++ sentFrames [e] := by
  cases e with
  | send b =>
    simp only [stepEv] at h
    by_cases hc : st.queue.length < channelCapacity
    · rw [if_pos hc] at h
      cases h
      simp [sentFrames, blocksJoin_append, blocksJoin, List.append_assoc]
    · rw [if_neg hc] at h
      cases h
  | recv n =>
    simp only [stepEv] at h
    have hfr := recvFill_conserves st.store st.queue
    by_cases hn : (recvFill st.store st.queue).1.length < n
    · rw [if_pos hn] at h
      cases h
      simp only [sentFrames, List.append_nil]
      rw [List.append_assoc, hfr, List.append_assoc]
    · rw [if_neg hn] at h
      cases h
      simp only [sentFrames, List.append_nil]
      rw [List.append_assoc, List.append_assoc, ← List.append_assoc
        ((recvFill st.store st.queue).1.take n)]
      rw [List.take_append_drop, ← List.append_assoc, List.append_assoc, hfr,
        List.append_assoc]

theorem runTrace_conserves (evs : List Ev) (st0 st : TraceState)
    (h : runTrace st0 evs = some st) :
    st.out ++ st.store ++ blocksJoin st.queue =
      st0.out ++ st0.store ++ blocksJoin st0.queue ++ sentFrames evs := by
  induction evs generalizing st0 with
  | nil =>
    unfold runTrace at h
    cases h
    simp [sentFrames]
  | cons e es ih =>
    unfold runTrace at h
    cases hstep : stepEv st0 e with
    | none => rw [hstep] at h; cases h
    | some st1 =>
      rw [hstep] at h
      have h1 := stepEv_conserves st0 st1 e hstep
      have h2 := ih st1 h
      rw [h2, h1]
      cases e with
      | send b => simp [sentFrames, List.append_assoc]
      | recv n => simp [sentFrames, List.append_assoc]

theorem runCreates_fst (r : RouterState) (us : List Nat) :
    (runCreates r us).1 = us := by
  induction us generalizing r with
  | nil => rfl
  | cons u us ih => simp [runCreates, new_channel, ih]

theorem runCreates_preserves (us : List Nat) (r : RouterState) (u : Nat)
    (h : u ∉ us) : channel (runCreates r us).2 u = channel r u := by
  induction us generalizing r with
  | nil => rfl
  | cons v vs ih =>
    have hv : u ≠ v := fun he => h (he ▸ List.mem_cons_self v vs)
    have hvs : u ∉ vs := fun hm => h (List.mem_cons_of_mem v hm)
    have : (runCreates r (v :: vs)).2 = (runCreates (new_channel r v).2 vs).2 :=
      rfl
    rw [this, ih _ hvs]
    simp [new_channel, channel, assocLookup_mapInsert_other _ v u _ hv]

theorem runCreates_all_empty (us : List Nat) :
    ∀ r : RouterState, us.Nodup →
      ∀ u ∈ us, channel (runCreates r us).2 u = some [] := by
  induction us with
  | nil =>
    intro r _ u hu
    simp at hu
  | cons v vs ih =>
    intro r h u hu
    obtain ⟨hnv, hvs⟩ := List.nodup_cons.mp h
    rcases List.mem_cons.mp hu with rfl | hmem
    · have he : (runCreates r (u :: vs)).2 =
          (runCreates (new_channel r u).2 vs).2 := rfl
      rw [he, runCreates_preserves vs _ u hnv]
      simp [new_channel, channel, assocLookup_mapInsert_self]
    · exact ih (new_channel r v).2 hvs u hmem

theorem fillLoop_overshoot (c : Channel) (s : List Sample)
    (h : s.length < HIGH_MARK) :
    (fillLoop s c).1.length < HIGH_MARK ∨
      ∃ t b, b ∈ c ∧ (fillLoop s c).1 = t ++ b ∧ t.length < HIGH_MARK ∧
        (fillLoop s c).1.length < HIGH_MARK + b.length := by
  induction c generalizing s with
  | nil =>
    unfold fillLoop
    simp [h]
  | cons b rest ih =>
    rw [fillLoop_cons s b rest h]
    by_cases h2 : (s ++ b).length < HIGH_MARK
    · rcases ih (s ++ b) h2 with hl | ⟨t, b2, hmem, heq, ht, hlen⟩
      · exact Or.inl hl
      · exact Or.inr ⟨t, b2, List.mem_cons_of_mem _ hmem, heq, ht, hlen⟩
    · rw [fillLoop_stop (s ++ b) rest h2]
      right
      refine ⟨s, b, List.mem_cons_self _ _, rfl, h, ?_⟩
      simpa [List.length_append] using Nat.add_lt_add_right h b.length

/-! Claim theorems. -/

/-- C1: the claim says a Sender render call performs a non-blocking send
that, on a channel already holding its capacity of 10 undelivered blocks,
returns without blocking and discards the new block. The code instead calls
SyncSender::send, which blocks the calling thread while the queue is full:
evaluated on a queue of 10 blocks, the render call cannot complete (none),
rather than returning with the block dropped and the state unchanged. -/
theorem sender_send_blocks_on_full_queue :
    renderSender
      (FeedbackState.mk Mode.Sender [] (some 1)
        (RouterState.mk [(1, List.replicate 10 [((0 : Int), (0 : Int))])]) [])
      [((1 : Int), (1 : Int))] = none := by decide

/-- C2 counterexample: calling new_channel_with_id with an id that is
already bound does not leave the existing channel untouched — a channel
holding one queued block is replaced by a fresh empty channel. -/
theorem create_channel_with_id_clobbers_queued_blocks :
    channel (new_channel_with_id
        (RouterState.mk [(7, [[((1 : Int), (2 : Int))]])]) 7) 7 ≠
      channel (RouterState.mk [(7, [[((1 : Int), (2 : Int))]])]) 7 := by
  decide

/-- C2 amended: new_channel_with_id unconditionally binds the id to a fresh
empty channel, replacing (and discarding the queued blocks of) any existing
channel under that id; repeating the call has no further effect. -/
theorem create_channel_with_id_replaces_with_empty (r : RouterState)
    (u : Nat) :
    channel (new_channel_with_id r u) u = some [] ∧
    new_channel_with_id (new_channel_with_id r u) u =
      new_channel_with_id r u := by
  refine ⟨assocLookup_mapInsert_self r.channels u [], ?_⟩
  show RouterState.mk (mapInsert (mapInsert r.channels u []) u []) =
    RouterState.mk (mapInsert r.channels u [])
  unfold mapInsert
  simp [mapErase, mapErase_mapErase]

/-- C4: in Receiver mode, when after the fill step the local buffer holds
fewer frames than the requested output length, the render call leaves every
element of the output buffer unmodified, pops no frame from the local
buffer, and reports the underrun exactly once. -/
theorem receiver_underrun_leaves_output_untouched (s : FeedbackState)
    (output : List Sample)
    (h : (receiverFill s).store.length < output.length) :
    (renderReceiver s output).2 = output ∧
    (renderReceiver s output).1.store = (receiverFill s).store ∧
    (renderReceiver s output).1.logs =
      (receiverFill s).logs ++
        [LogMsg.underrun (receiverFill s).store.length output.length] := by
  unfold renderReceiver receiverOutput
  rw [if_pos h]
  exact ⟨rfl, rfl, rfl⟩

/-- Witness for the underrun theorem at a freshly created instance (empty
store, no channel selected) asked for one output frame. -/
theorem receiver_underrun_witness :
    (renderReceiver (initialFeedback (RouterState.mk []))
        [((0 : Int), (0 : Int))]).2 = [((0 : Int), (0 : Int))] ∧
    (renderReceiver (initialFeedback (RouterState.mk []))
        [((0 : Int), (0 : Int))]).1.store =
      (receiverFill (initialFeedback (RouterState.mk []))).store ∧
    (renderReceiver (initialFeedback (RouterState.mk []))
        [((0 : Int), (0 : Int))]).1.logs =
      (receiverFill (initialFeedback (RouterState.mk []))).logs ++
        [LogMsg.underrun
          (receiverFill (initialFeedback (RouterState.mk []))).store.length
          ([((0 : Int), (0 : Int))] : List Sample).length] :=
  receiver_underrun_leaves_output_untouched
    (initialFeedback (RouterState.mk [])) [((0 : Int), (0 : Int))] (by decide)

/-- C5: with a selected, existing channel, the fill step is skipped exactly
when the local buffer is at or above LOW_MARK; otherwise the channel is
drained by the fill loop, and afterwards the buffer is at or above
HIGH_MARK or the channel was drained to empty during the fill. -/
theorem receiver_fill_watermarks (s : FeedbackState) (u : Nat)
    (chan : Channel) (hu : s.uuid = some u)
    (hc : channel s.router u = some chan) :
    (LOW_MARK ≤ s.store.length → receiverFill s = s) ∧
    (s.store.length < LOW_MARK →
      (receiverFill s).store = (fillLoop s.store chan).1 ∧
      (HIGH_MARK ≤ (fillLoop s.store chan).1.length ∨
        (fillLoop s.store chan).2 = [])) := by
  constructor
  · intro hl
    simp [receiverFill, hu, hc, Nat.not_lt.mpr hl]
  · intro hl
    refine ⟨?_, fillLoop_high_or_empty chan s.store⟩
    simp [receiverFill, hu, hc, hl]

/-- Witness for the watermark theorem: one instance at 256 buffered frames
(fill skipped) and one at 0 buffered frames with one queued block (fill
drains the channel to empty). -/
theorem receiver_fill_watermarks_witness :
    receiverFill
        (FeedbackState.mk Mode.Receiver
          (List.replicate 256 ((0 : Int), (0 : Int))) (some 1)
          (RouterState.mk [(1, [])]) []) =
      FeedbackState.mk Mode.Receiver
        (List.replicate 256 ((0 : Int), (0 : Int))) (some 1)
        (RouterState.mk [(1, [])]) [] ∧
    ((receiverFill
        (FeedbackState.mk Mode.Receiver [] (some 1)
          (RouterState.mk [(1, [[((3 : Int), (4 : Int))]])]) [])).store =
      (fillLoop [] [[((3 : Int), (4 : Int))]]).1 ∧
      (HIGH_MARK ≤ (fillLoop [] [[((3 : Int), (4 : Int))]]).1.length ∨
        (fillLoop [] [[((3 : Int), (4 : Int))]]).2 = [])) :=
  ⟨(receiver_fill_watermarks
      (FeedbackState.mk Mode.Receiver
        (List.replicate 256 ((0 : Int), (0 : Int))) (some 1)
        (RouterState.mk [(1, [])]) []) 1 [] rfl rfl).1
      (by rw [List.length_replicate]; exact Nat.le.refl),
   (receiver_fill_watermarks
      (FeedbackState.mk Mode.Receiver [] (some 1)
        (RouterState.mk [(1, [[((3 : Int), (4 : Int))]])]) []) 1
      [[((3 : Int), (4 : Int))]] rfl rfl).2 (by decide)⟩

/-- C6: immediately after set_channel with id u, the local smoothing buffer
is empty, u is recorded as the current selection, and whatever queue the
channel u held before the switch has been drained to empty (its blocks
discarded, not moved to the store). -/
theorem select_channel_clears_store_and_drains (s : FeedbackState)
    (u : Nat) :
    (set_channel s u).store = [] ∧
    (set_channel s u).uuid = some u ∧
    channel (set_channel s u).router u =
      Option.map (fun _ => ([] : Channel)) (channel s.router u) := by
  refine ⟨rfl, rfl, ?_⟩
  cases hc : channel s.router u with
  | none => simp [set_channel, hc]
  | some c0 =>
    simp only [set_channel, hc, Option.map_some']
    exact assocLookup_updateAssoc_self s.router.channels u [] c0 hc

/-- C7: for one channel with one producer (Sender render path) and one
consumer (Receiver fill/output path), every frame sequence the consumer can
have output is, together with what is still buffered and still queued, the
concatenation of the sent blocks' frames in send order: block order is FIFO
and frame order within each block is preserved end to end. -/
theorem single_channel_fifo (evs : List Ev) (st : TraceState)
    (h : runTrace (TraceState.mk [] [] []) evs = some st) :
    st.out ++ st.store ++ blocksJoin st.queue = sentFrames evs := by
  simpa [blocksJoin] using
    runTrace_conserves evs (TraceState.mk [] [] []) st h

/-- Witness for the FIFO theorem: send one block of one frame, then one
receive of one frame outputs exactly that frame. -/
theorem single_channel_fifo_witness :
    (TraceState.mk [] [] [((1 : Int), (2 : Int))]).out ++
      (TraceState.mk [] [] [((1 : Int), (2 : Int))]).store ++
      blocksJoin (TraceState.mk [] [] [((1 : Int), (2 : Int))]).queue =
    sentFrames [Ev.send [((1 : Int), (2 : Int))], Ev.recv 1] :=
  single_channel_fifo [Ev.send [((1 : Int), (2 : Int))], Ev.recv 1]
    (TraceState.mk [] [] [((1 : Int), (2 : Int))]) (by decide)

/-- C8 counterexample: after a deserialization failure, an instance that
was in Sender mode with channel 3 selected does not fall back to the
default state (Receiver mode, no channel selected). -/
theorem load_state_failure_not_default :
    ¬ ((load_state (FeedbackState.mk Mode.Sender [] (some 3)
          (RouterState.mk []) []) none).mode = Mode.Receiver ∧
       (load_state (FeedbackState.mk Mode.Sender [] (some 3)
          (RouterState.mk []) []) none).uuid = none) := by decide

/-- C8 amended: on a failed read or deserialize, load_state only logs the
failure and leaves mode, store, selection and router unchanged; the default
state (Receiver mode, no channel selected) is what a freshly constructed
instance holds, so only an instance still in its initial state remains at
the defaults. -/
theorem load_state_failure_leaves_state (s : FeedbackState)
    (r : RouterState) :
    load_state s none = { s with logs := s.logs ++ [LogMsg.loadError] } ∧
    (initialFeedback r).mode = Mode.Receiver ∧
    (initialFeedback r).uuid = none :=
  ⟨rfl, rfl, rfl⟩

/-- C9: running any sequence of new_channel calls whose ids are drawn from
a non-repeating id generator returns exactly those pairwise distinct ids,
never fails (every call returns an id), and leaves each returned id bound
to a new empty channel. -/
theorem create_channel_ids_distinct (r : RouterState) (us : List Nat)
    (h : us.Nodup) :
    (runCreates r us).1 = us ∧ (runCreates r us).1.Nodup ∧
    ∀ u ∈ us, channel (runCreates r us).2 u = some [] := by
  refine ⟨runCreates_fst r us, ?_, runCreates_all_empty us r h⟩
  rw [runCreates_fst r us]
  exact h

/-- Witness for the create-channel theorem at three fresh ids. -/
theorem create_channel_ids_distinct_witness :
    (runCreates (RouterState.mk []) [1, 2, 3]).1 = [1, 2, 3] ∧
    (runCreates (RouterState.mk []) [1, 2, 3]).1.Nodup ∧
    channel (runCreates (RouterState.mk []) [1, 2, 3]).2 2 = some [] :=
  ⟨(create_channel_ids_distinct (RouterState.mk []) [1, 2, 3] (by decide)).1,
   (create_channel_ids_distinct (RouterState.mk []) [1, 2, 3]
      (by decide)).2.1,
   (create_channel_ids_distinct (RouterState.mk []) [1, 2, 3]
      (by decide)).2.2 2 (by decide)⟩

/-- C10: the fill loop tests HIGH_MARK only between whole blocks, so when
it starts below HIGH_MARK it ends either still below HIGH_MARK or at a
length strictly below HIGH_MARK plus the length of the last block it
appended; and the rest of the render call only shrinks the store, never
grows it past that bound. -/
theorem fill_overshoot_bounded_by_last_block (s : List Sample) (c : Channel)
    (sf : FeedbackState) (out : List Sample) (h : s.length < HIGH_MARK) :
    ((fillLoop s c).1.length < HIGH_MARK ∨
      ∃ t b, b ∈ c ∧ (fillLoop s c).1 = t ++ b ∧ t.length < HIGH_MARK ∧
        (fillLoop s c).1.length < HIGH_MARK + b.length) ∧
    (renderReceiver sf out).1.store.length ≤
      (receiverFill sf).store.length := by
  refine ⟨fillLoop_overshoot c s h, ?_⟩
  unfold renderReceiver receiverOutput
  by_cases ho : (receiverFill sf).store.length < out.length
  · rw [if_pos ho]
  · rw [if_neg ho]
    simp [List.length_drop]

/-- Witness for the overshoot theorem: an empty store and a single queued
block of 5000 frames overshoot HIGH_MARK by less than that block's
length. -/
theorem fill_overshoot_witness :
    ((fillLoop []
        [List.replicate 5000 ((0 : Int), (0 : Int))]).1.length < HIGH_MARK ∨
      ∃ t b, b ∈ [List.replicate 5000 ((0 : Int), (0 : Int))] ∧
        (fillLoop [] [List.replicate 5000 ((0 : Int), (0 : Int))]).1 =
          t ++ b ∧
        t.length < HIGH_MARK ∧
        (fillLoop [] [List.replicate 5000 ((0 : Int), (0 : Int))]).1.length <
          HIGH_MARK + b.length) ∧
    (renderReceiver (initialFeedback (RouterState.mk [])) []).1.store.length ≤
      (receiverFill (initialFeedback (RouterState.mk []))).store.length :=
  fill_overshoot_bounded_by_last_block []
    [List.replicate 5000 ((0 : Int), (0 : Int))]
    (initialFeedback (RouterState.mk [])) [] (by decide)

end Feedback
